import Mathlib

/-!
Verification of the test-result extraction pipeline of `execexam`
(`src/execexam/main.py`).

Modelling conventions (shallow embedding):
* A Python string is modelled as a `List Char`; string literals of the
  source appear as `"…".data`.
* The raw JSON-shaped report values (strings, ints, dicts, lists) are
  modelled by the inductive `JVal`.  Python dicts preserve insertion
  order, so a dict is an ordered association list; `d[k]` is `dictGet`,
  which fails with `PyError.keyError k` exactly as Python raises
  `KeyError(k)` on a missing key, and `k in d` is `List.lookup`.
* Fallible functions return `Except PyError _`.  Using a value with the
  wrong shape (e.g. indexing a non-dict, `str.split` on a non-string)
  is modelled by `PyError.typeError`, standing for the
  `TypeError`/`AttributeError` Python would raise at that spot.
* `pathlib.PurePosixPath` objects are represented by their `parts`
  list, with the root `"/"` (or `"//"`) as the first element for
  absolute paths, exactly as in `pathlib`.
-/

/-- Values of the JSON-shaped raw test-run report: strings, integers,
ordered dicts and lists, mirroring what the external report plugin
produces. -/
inductive JVal where
  | str : List Char → JVal
  | num : Int → JVal
  | obj : List (List Char × JVal) → JVal
  | arr : List JVal → JVal

/-- Errors the embedded pipeline functions can signal.  `keyError k`
models Python's built-in `KeyError(k)`, raised by `d[k]` on a missing
key, which is what the source code actually raises.  `typeError`
stands for the `TypeError`/`AttributeError` raised when a value has
the wrong shape.  `malformedReportError` is modelled from the spec:
§7 of the spec names a `MalformedReportError` class, but no such class
exists anywhere in `src/execexam/main.py`; the constructor exists here
only so that the spec's claim about it can be stated and compared with
what the code does. -/
inductive PyError where
  | keyError : List Char → PyError
  | typeError : PyError
  | malformedReportError : PyError
deriving DecidableEq

/-- One entry of the failing-test location list built by
`extract_failing_test_details`: in the source it is the dict
`{"test_name": …, "test_path": …}` holding the function-name segment
and the composed `pathlib` path. -/
structure FailingLoc where
  test_name : List Char
  test_path : List (List Char)
deriving DecidableEq

/-- Python dict subscription `d[k]`: the value at the first matching
key, or `KeyError(k)`. -/
def dictGet (d : List (List Char × JVal)) (k : List Char) : Except PyError JVal :=
  match d.lookup k with
  | some v => .ok v
  | none => .error (.keyError k)

/-- Require a string value (using a non-string where Python would call
a `str` method raises). -/
def asStr : JVal → Except PyError (List Char)
  | .str s => .ok s
  | _ => .error .typeError

/-- Require a dict value (subscripting a non-dict with a string key
raises). -/
def asObj : JVal → Except PyError (List (List Char × JVal))
  | .obj fields => .ok fields
  | _ => .error .typeError

/-- Require a list value (iterating a non-list raises). -/
def asArr : JVal → Except PyError (List JVal)
  | .arr elems => .ok elems
  | _ => .error .typeError

/-- Require every element of a list to be a dict. -/
def asObjList : List JVal → Except PyError (List (List (List Char × JVal)))
  | [] => .ok []
  | v :: rest =>
    match asObj v with
    | .error e => .error e
    | .ok fields =>
      match asObjList rest with
      | .error e => .error e
      | .ok others => .ok (fields :: others)

mutual

/-- Python `repr` of a report value, used when a non-string value is
interpolated into an f-string via `str`.  Escaping of special
characters inside nested strings is not modelled (Python would escape
quotes and control characters); no claim depends on this case. -/
def pyRepr : JVal → List Char
  | .str s => '\'' :: (s ++ ['\''])
  | .num n => (toString n).data
  | .arr vs => '[' :: (pyReprElems vs ++ [']'])
  | .obj fs => '\x7b' :: (pyReprFields fs ++ ['\x7d'])

/-- Comma-separated `repr`s of list elements. -/
def pyReprElems : List JVal → List Char
  | [] => []
  | [v] => pyRepr v
  | v :: w :: rest => pyRepr v ++ ", ".data ++ pyReprElems (w :: rest)

/-- Comma-separated `'key': repr(value)` renderings of dict fields. -/
def pyReprFields : List (List Char × JVal) → List Char
  | [] => []
  | [(k, v)] => ('\'' :: k) ++ ('\'' :: ": ".data) ++ pyRepr v
  | (k, v) :: p :: rest =>
    ('\'' :: k) ++ ('\'' :: ": ".data) ++ pyRepr v ++ ", ".data ++ pyReprFields (p :: rest)

end

/-- Python `str(value)`, as used by f-string interpolation: strings
pass through unchanged, everything else renders via `repr`. -/
def pyStr : JVal → List Char
  | .str s => s
  | .num n => (toString n).data
  | v => pyRepr v

/-- Join path segments with `"/"` separators. -/
def joinSegs : List (List Char) → List Char
  | [] => []
  | [s] => s
  | s :: t :: rest => s ++ '/' :: joinSegs (t :: rest)

/-- `PurePosixPath.as_posix()` from a `parts` list: a leading root part
(`"/"` or `"//"`) is glued directly onto the remaining segments, a
relative path is the `"/"`-joined segments, and the empty parts list is
the path `"."`. -/
def partsToPosix : List (List Char) → List Char
  | [] => ".".data
  | p :: rest =>
    if p = "/".data ∨ p = "//".data then p ++ joinSegs rest
    else joinSegs (p :: rest)

/-- Root part of a POSIX path string, following `pathlib`: exactly two
leading slashes give the special root `"//"`, any other number of
leading slashes gives `"/"`, and no leading slash means a relative
path. -/
def pathRoot : List Char → Option (List Char)
  | '/' :: '/' :: '/' :: _ => some "/".data
  | '/' :: '/' :: _ => some "//".data
  | '/' :: _ => some "/".data
  | _ => none

/-- `PurePosixPath(s).parts`: the root (if any) followed by the
non-empty, non-`"."` segments of `s`. -/
def parsePath (s : List Char) : List (List Char) :=
  let segs := (s.splitOn '/').filter (fun seg => !seg.isEmpty && seg ≠ ".".data)
  match pathRoot s with
  | some r => r :: segs
  | none => segs

/-- `Path(base) / s`: an absolute right operand replaces the base,
otherwise the segments of `s` are appended. -/
def pathJoin (base : List (List Char)) (s : List Char) : List (List Char) :=
  match pathRoot s with
  | some _ => parsePath s
  | none => base ++ parsePath s

/-- Embeds `path_to_string` (main.py lines 45-51): if the path has more
than `levels` parts, rebuild it as `Path("<...>", *parts[-levels:])`,
else render the path unchanged; either way the result is
`.as_posix()`. -/
def path_to_string (parts : List (List Char)) (levels : Nat) : List Char :=
  if parts.length > levels then
    partsToPosix ("<...>".data :: parts.drop (parts.length - levels))
  else
    partsToPosix parts

/-- Embeds `extract_details` (main.py lines 54-60): render each
key/value pair of the summary dict as `f"{value} {key}"`, join with
`", "`, and prefix `"Details: "`. -/
def extract_details (details : List (List Char × JVal)) : List Char :=
  "Details: ".data ++ joinSep (details.map (fun kv => pyStr kv.2 ++ ' ' :: kv.1))
where
  /-- `", ".join` of the rendered pairs. -/
  joinSep : List (List Char) → List Char
    | [] => []
    | [s] => s
    | s :: t :: rest => s ++ ", ".data ++ joinSep (t :: rest)

/-- Embeds `extract_test_run_details` (main.py lines 63-70): fetch
`details["summary"]` and render it with `extract_details`. -/
def extract_test_run_details (details : List (List Char × JVal)) : Except PyError (List Char) :=
  match dictGet details ("summary".data) with
  | .error e => .error e
  | .ok summaryV =>
    match asObj summaryV with
    | .error e => .error e
    | .ok summary_details => .ok (extract_details summary_details)

/-- Loop body of `extract_test_assertion_details`: the `first` flag
makes the first pair start with `"  - "` and every later pair start
with the four-space indent `"    "`. -/
def assertion_pairs_loop : Bool → List (List Char × JVal) → List Char
  | _, [] => []
  | true, (k, v) :: rest =>
    "  - ".data ++ k ++ ": ".data ++ pyStr v ++ '\n' :: assertion_pairs_loop false rest
  | false, (k, v) :: rest =>
    "    ".data ++ k ++ ": ".data ++ pyStr v ++ '\n' :: assertion_pairs_loop false rest

/-- Embeds `extract_test_assertion_details` (main.py lines 73-94):
render the key/value pairs of one assertion record in insertion order,
the first pair marked with `"  - "`, the rest indented. -/
def extract_test_assertion_details (test_details : List (List Char × JVal)) : List Char :=
  assertion_pairs_loop true test_details

/-- Embeds `extract_test_assertion_details_list` (main.py lines
97-104): concatenate the rendering of each assertion record in
order. -/
def extract_test_assertion_details_list : List (List (List Char × JVal)) → List Char
  | [] => []
  | d :: rest => extract_test_assertion_details d ++ extract_test_assertion_details_list rest

/-- The characters after the last `'/'` of a string (the whole string
when it has no `'/'`), modelling `test_name.rsplit("/", 1)[-1]`. -/
def afterLastSlash (cs : List Char) : List Char :=
  (cs.reverse.takeWhile (fun c => c != '/')).reverse

/-- Embeds `extract_test_assertions_details` (main.py lines 107-130):
for each test report emit `"\n" + nodeid-after-last-slash + "\n"`, then
the rendered assertion list when the report has an `"assertions"` key.
The elements under `"assertions"` are required to be dicts up front;
in Python the same shape error would surface inside
`extract_test_assertion_details_list`, and either way the error
discards all output. -/
def extract_test_assertions_details :
    List (List (List Char × JVal)) → Except PyError (List Char)
  | [] => .ok []
  | test_report :: rest =>
    match dictGet test_report ("nodeid".data) with
    | .error e => .error e
    | .ok nodeidV =>
      match asStr nodeidV with
      | .error e => .error e
      | .ok test_name =>
        let display_test_name := afterLastSlash test_name
        match test_report.lookup ("assertions".data) with
        | none =>
          match extract_test_assertions_details rest with
          | .error e => .error e
          | .ok s => .ok ('\n' :: display_test_name ++ '\n' :: s)
        | some assertionsV =>
          match asArr assertionsV with
          | .error e => .error e
          | .ok elems =>
            match asObjList elems with
            | .error e => .error e
            | .ok records =>
              match extract_test_assertions_details rest with
              | .error e => .error e
              | .ok s =>
                .ok ('\n' :: display_test_name ++ '\n' ::
                  (extract_test_assertion_details_list records ++ s))

/-- Python `nodeid.split("::")`: split on every non-overlapping
occurrence of the two-character separator, scanning left to right. -/
def splitDoubleColonAux : List Char → List Char → List (List Char)
  | acc, ':' :: ':' :: rest => acc.reverse :: splitDoubleColonAux [] rest
  | acc, c :: rest => splitDoubleColonAux (c :: acc) rest
  | acc, [] => [acc.reverse]

/-- `nodeid.split("::")` as used at main.py line 164. -/
def splitDoubleColon (cs : List Char) : List (List Char) :=
  splitDoubleColonAux [] cs

/-- Loop of `extract_failing_test_details` (main.py lines 146-183),
threading the accumulated diagnostic string and location list.  The
accesses happen in the source's order: `test["outcome"]`, then for a
failed test `test["nodeid"]`, the `Name:` line, `test["call"]`,
`call["crash"]`, `details["root"]`, the path/name split of the nodeid,
the location dict, and finally `crash["lineno"]`/`crash["message"]`
with the `Path:`/`Line number:`/`Message:` lines. -/
def extract_failing_tests_loop (details : List (List Char × JVal)) :
    List JVal → List Char → List FailingLoc → Except PyError (List Char × List FailingLoc)
  | [], failing_details_str, failing_test_paths => .ok (failing_details_str, failing_test_paths)
  | test :: rest, failing_details_str, failing_test_paths =>
    match asObj test with
    | .error e => .error e
    | .ok testFields =>
      match dictGet testFields ("outcome".data) with
      | .error e => .error e
      | .ok outcome =>
        match outcome with
        | .str oc =>
          if oc = "failed".data then
            match dictGet testFields ("nodeid".data) with
            | .error e => .error e
            | .ok nodeidV =>
              match asStr nodeidV with
              | .error e => .error e
              | .ok failing_test_nodeid =>
                let str1 := failing_details_str ++
                  "  Name: ".data ++ failing_test_nodeid ++ ['\n']
                match dictGet testFields ("call".data) with
                | .error e => .error e
                | .ok callV =>
                  match asObj callV with
                  | .error e => .error e
                  | .ok failing_test_call =>
                    match dictGet failing_test_call ("crash".data) with
                    | .error e => .error e
                    | .ok crashV =>
                      match dictGet details ("root".data) with
                      | .error e => .error e
                      | .ok rootV =>
                        match asStr rootV with
                        | .error e => .error e
                        | .ok failing_test_path_root =>
                          let failing_test_nodeid_split := splitDoubleColon failing_test_nodeid
                          let failing_test_path :=
                            pathJoin (parsePath failing_test_path_root)
                              (failing_test_nodeid_split.headD [])
                          let failing_test_name := failing_test_nodeid_split.getLastD []
                          let paths1 := failing_test_paths ++
                            [⟨failing_test_name, failing_test_path⟩]
                          let failing_test_path_str := path_to_string failing_test_path 4
                          match asObj crashV with
                          | .error e => .error e
                          | .ok failing_test_crash =>
                            match dictGet failing_test_crash ("lineno".data) with
                            | .error e => .error e
                            | .ok linenoV =>
                              match dictGet failing_test_crash ("message".data) with
                              | .error e => .error e
                              | .ok messageV =>
                                let str2 := str1 ++
                                  "  Path: ".data ++ failing_test_path_str ++ ['\n'] ++
                                  "  Line number: ".data ++ pyStr linenoV ++ ['\n'] ++
                                  "  Message: ".data ++ pyStr messageV ++ ['\n']
                                extract_failing_tests_loop details rest str2 paths1
          else
            extract_failing_tests_loop details rest failing_details_str failing_test_paths
        | _ =>
          extract_failing_tests_loop details rest failing_details_str failing_test_paths

/-- Embeds `extract_failing_test_details` (main.py lines 133-185):
start the diagnostic string with a single newline, then walk
`details["tests"]`, appending a text block and a location entry for
every record whose outcome equals `"failed"`. -/
def extract_failing_test_details (details : List (List Char × JVal)) :
    Except PyError (List Char × List FailingLoc) :=
  match dictGet details ("tests".data) with
  | .error e => .error e
  | .ok testsV =>
    match asArr testsV with
    | .error e => .error e
    | .ok tests => extract_failing_tests_loop details tests ['\n'] []

/-- Embeds `is_failing_test_details_empty` (main.py lines 201-205):
true exactly when the diagnostic string is the single newline
sentinel. -/
def is_failing_test_details_empty (details : List Char) : Bool :=
  if details = "\n".data then true else false

/-- Python `sub in s`: `sub` occurs contiguously inside `s`
(case-sensitive, unanchored). -/
def inStr (sub s : List Char) : Bool :=
  match s with
  | [] => sub.isEmpty
  | _ :: rest => sub.isPrefixOf s || inStr sub rest

/-- The line-break characters recognised by Python `str.splitlines`. -/
def isLineBreak (c : Char) : Bool :=
  c == '\n' || c == '\r' || c == '\x0b' || c == '\x0c' ||
  c == '\x1c' || c == '\x1d' || c == '\x1e' || c == '\x85' ||
  c == ' ' || c == ' '

/-- Python `str.splitlines`, accumulating the current (reversed) line:
`"\r\n"` counts as one break, a trailing break yields no extra empty
line, and the empty string has no lines. -/
def splitlinesAux : List Char → List Char → List (List Char)
  | acc, [] => if acc.isEmpty then [] else [acc.reverse]
  | acc, [c] =>
    if isLineBreak c then acc.reverse :: splitlinesAux [] []
    else splitlinesAux (c :: acc) []
  | acc, c :: d :: rest =>
    if c = '\r' then
      if d = '\n' then acc.reverse :: splitlinesAux [] rest
      else acc.reverse :: splitlinesAux [] (d :: rest)
    else if isLineBreak c then acc.reverse :: splitlinesAux [] (d :: rest)
    else splitlinesAux (c :: acc) (d :: rest)

/-- Python `output.splitlines()`. -/
def splitlines (cs : List Char) : List (List Char) :=
  splitlinesAux [] cs

/-- Embeds `filter_test_output` (main.py lines 188-198): keep exactly
the lines of `output` that contain `keep_line_label`, each with a
newline appended, concatenated in order. -/
def filter_test_output (keep_line_label output : List Char) : List Char :=
  (splitlines output).foldl
    (fun filtered_output line =>
      if inStr keep_line_label line then filtered_output ++ line ++ ['\n']
      else filtered_output)
    []

/-- A test record counts as failed when it is a dict whose
`"outcome"` entry is the string `"failed"` (main.py line 147). -/
def isFailedTest (t : JVal) : Bool :=
  match t with
  | .obj fields =>
    match fields.lookup ("outcome".data) with
    | some (.str oc) => oc = "failed".data
    | _ => false
  | _ => false

/-- Number of failed records in a `tests` list. -/
def countFailed (tests : List JVal) : Nat :=
  tests.countP isFailedTest

/-- Well-formedness of one test record, following the report shape of
spec §6: it is a dict with an `"outcome"` entry, and when that entry
is the string `"failed"` it also has a string `"nodeid"`, a dict
`"call"` containing a dict `"crash"` with `"lineno"` and `"message"`
entries. -/
def WFTest (t : JVal) : Prop :=
  ∃ fields, t = JVal.obj fields ∧
    (∃ oc, fields.lookup ("outcome".data) = some oc) ∧
    (isFailedTest t = true →
      (∃ nid, fields.lookup ("nodeid".data) = some (.str nid)) ∧
      (∃ callF, fields.lookup ("call".data) = some (.obj callF) ∧
        ∃ crashF, callF.lookup ("crash".data) = some (.obj crashF) ∧
          (∃ ln, crashF.lookup ("lineno".data) = some ln) ∧
          (∃ msg, crashF.lookup ("message".data) = some msg)))

/-- One AssertionReport of the side-channel stream (spec §3): a nodeid
and an optional ordered list of assertion records. -/
structure AssertionReport where
  nodeid : List Char
  assertions : Option (List (List (List Char × JVal)))

/-- The raw dict shape in which an `AssertionReport` reaches
`extract_test_assertions_details`. -/
def encodeAssertionReport (r : AssertionReport) : List (List Char × JVal) :=
  ("nodeid".data, .str r.nodeid) ::
    (match r.assertions with
     | none => []
     | some records => [("assertions".data, .arr (records.map JVal.obj))])

theorem assertion_pairs_loop_false (rest : List (List Char × JVal)) :
    assertion_pairs_loop false rest =
      (rest.map (fun kv => "    ".data ++ kv.1 ++ ": ".data ++ pyStr kv.2 ++ ['\n'])).flatten := by
  induction rest with
  | nil => rfl
  | cons kv rest ih =>
    obtain ⟨k, v⟩ := kv
    simp [assertion_pairs_loop, ih, List.append_assoc]

/-- C7: for every non-empty ordered assertion record,
`extract_test_assertion_details` renders the key/value pairs in
insertion order, the `"  - "` marker appears exactly once, on the
first pair, and every later pair starts with the aligning four-space
indent `"    "`. -/
theorem extract_test_assertion_details_marker (k : List Char) (v : JVal)
    (rest : List (List Char × JVal)) :
    extract_test_assertion_details ((k, v) :: rest) =
      "  - ".data ++ k ++ ": ".data ++ pyStr v ++ ['\n'] ++
        (rest.map (fun kv => "    ".data ++ kv.1 ++ ": ".data ++ pyStr kv.2 ++ ['\n'])).flatten := by
  simp [extract_test_assertion_details, assertion_pairs_loop, assertion_pairs_loop_false,
    List.append_assoc]

/-- C9: `extract_test_assertion_details_list` is a monoid homomorphism
from lists of assertion records under concatenation to strings under
concatenation: it maps `xs ++ ys` to the rendering of `xs` followed by
the rendering of `ys`, and the empty list to the empty string. -/
theorem extract_test_assertion_details_list_hom :
    (∀ xs ys : List (List (List Char × JVal)),
      extract_test_assertion_details_list (xs ++ ys) =
        extract_test_assertion_details_list xs ++ extract_test_assertion_details_list ys) ∧
    extract_test_assertion_details_list [] = [] := by
  constructor
  · intro xs ys
    induction xs with
    | nil => simp [extract_test_assertion_details_list]
    | cons d rest ih =>
      simp [extract_test_assertion_details_list, ih, List.append_assoc]
  · rfl

theorem asObjList_map_obj (records : List (List (List Char × JVal))) :
    asObjList (records.map JVal.obj) = .ok records := by
  induction records with
  | nil => rfl
  | cons r rest ih => simp [asObjList, asObj, ih]

/-- C8: on every ordered sequence of AssertionReport entries,
`extract_test_assertions_details` emits, in input order, one header
per report equal to the text after the last `/` of its nodeid (the
whole nodeid when it has no `/`), followed by that report's formatted
assertion list when an `"assertions"` entry is present; a report
without assertions contributes only its header line. -/
theorem extract_test_assertions_details_spec (rs : List AssertionReport) :
    extract_test_assertions_details (rs.map encodeAssertionReport) =
      .ok ((rs.map (fun r => '\n' :: afterLastSlash r.nodeid ++ '\n' ::
          (match r.assertions with
           | none => []
           | some records => extract_test_assertion_details_list records))).flatten) := by
  induction rs with
  | nil => rfl
  | cons r rest ih =>
    obtain ⟨nodeid, assertions⟩ := r
    have hne : (("assertions".data : List Char) == "nodeid".data) = false := by decide
    cases assertions with
    | none =>
      simp [extract_test_assertions_details, encodeAssertionReport, dictGet, asStr,
        List.lookup, hne, ih, List.append_assoc]
    | some records =>
      simp [extract_test_assertions_details, encodeAssertionReport, dictGet, asStr, asArr,
        List.lookup, hne, asObjList_map_obj, ih, List.append_assoc]

/-- C5: the summarizer renders the report's summary mapping as
`"Details: "` followed by the `"<count> <category>"` pairs joined by
`", "` in the mapping's iteration order, renders the empty mapping as
exactly `"Details: "`, and renders the example summary
`{"passed": 2, "failed": 1, "total": 3}` as
`"Details: 2 passed, 1 failed, 3 total"`. -/
theorem extract_test_run_details_spec
    (details summary : List (List Char × JVal))
    (h : details.lookup ("summary".data) = some (.obj summary)) :
    extract_test_run_details details = .ok (extract_details summary) ∧
    extract_details summary =
      "Details: ".data ++
        extract_details.joinSep (summary.map (fun kv => pyStr kv.2 ++ ' ' :: kv.1)) ∧
    extract_details [] = "Details: ".data ∧
    extract_details
        [("passed".data, .num 2), ("failed".data, .num 1), ("total".data, .num 3)] =
      "Details: 2 passed, 1 failed, 3 total".data := by
  refine ⟨?_, rfl, by decide, by decide⟩
  simp [extract_test_run_details, dictGet, h, asObj]

theorem extract_test_run_details_spec_witness :
    extract_test_run_details
        [("summary".data,
          .obj [("passed".data, .num 2), ("failed".data, .num 1), ("total".data, .num 3)])] =
      .ok (extract_details
        [("passed".data, .num 2), ("failed".data, .num 1), ("total".data, .num 3)]) ∧
    extract_details
        [("passed".data, .num 2), ("failed".data, .num 1), ("total".data, .num 3)] =
      "Details: ".data ++
        extract_details.joinSep
          ([("passed".data, JVal.num 2), ("failed".data, JVal.num 1),
            ("total".data, JVal.num 3)].map (fun kv => pyStr kv.2 ++ ' ' :: kv.1)) ∧
    extract_details [] = "Details: ".data ∧
    extract_details
        [("passed".data, .num 2), ("failed".data, .num 1), ("total".data, .num 3)] =
      "Details: 2 passed, 1 failed, 3 total".data :=
  extract_test_run_details_spec _ _ rfl

/-- C3 as stated is false on the code: the absolute path `/a/b/c/d`
has four named segments (the claim's counting, as in its `/a/b/c/d/e`
example), so the claim says it renders unchanged, but `pathlib` counts
the leading `/` as a fifth part, so `path_to_string` elides it to
`<...>/a/b/c/d` instead of rendering `/a/b/c/d`. -/
theorem path_to_string_four_segment_counterexample :
    ((parsePath "/a/b/c/d".data).filter (fun p => p != "/".data)).length = 4 ∧
    partsToPosix (parsePath "/a/b/c/d".data) = "/a/b/c/d".data ∧
    path_to_string (parsePath "/a/b/c/d".data) 4 = "<...>/a/b/c/d".data ∧
    path_to_string (parsePath "/a/b/c/d".data) 4 ≠ "/a/b/c/d".data := by
  refine ⟨by decide, by decide, by decide, by decide⟩

theorem joinSegs_cons_of_ne_nil (s : List Char) (l : List (List Char)) (h : l ≠ []) :
    joinSegs (s :: l) = s ++ '/' :: joinSegs l := by
  cases l with
  | nil => exact absurd rfl h
  | cons t rest => rfl

/-- C3 amended: counting components as `pathlib` parts (for an
absolute path the leading `/` is itself a component), `path_to_string`
with `levels = 4` renders a path with more than 4 parts as `<...>/`
followed by exactly its last 4 parts, renders a path with at most 4
parts unchanged, and in particular renders `/a/b/c/d/e` (six parts) as
`<...>/b/c/d/e`. -/
theorem path_to_string_elision (parts : List (List Char)) :
    (parts.length ≤ 4 → path_to_string parts 4 = partsToPosix parts) ∧
    (4 < parts.length →
      path_to_string parts 4 =
        "<...>".data ++ '/' :: joinSegs (parts.drop (parts.length - 4))) ∧
    path_to_string (parsePath "/a/b/c/d/e".data) 4 = "<...>/b/c/d/e".data := by
  refine ⟨?_, ?_, by decide⟩
  · intro h
    rw [path_to_string, if_neg (by omega)]
  · intro h
    rw [path_to_string, if_pos h, partsToPosix, if_neg (by decide),
      joinSegs_cons_of_ne_nil]
    intro hnil
    have := congrArg List.length hnil
    simp [List.length_drop] at this
    omega

theorem path_to_string_elision_witness :
    path_to_string (parsePath "a/b/c".data) 4 = partsToPosix (parsePath "a/b/c".data) ∧
    path_to_string (parsePath "/a/b/c/d/e".data) 4 =
      "<...>".data ++ '/' ::
        joinSegs ((parsePath "/a/b/c/d/e".data).drop
          ((parsePath "/a/b/c/d/e".data).length - 4)) :=
  ⟨(path_to_string_elision _).1 (by decide), (path_to_string_elision _).2.1 (by decide)⟩

/-- C2 as stated is false on the code: ingesting a report that lacks
the required `"tests"` key fails with Python's built-in
`KeyError("tests")` — the `MalformedReportError` named by the spec
does not exist in the code, so the error raised is of a different
kind. -/
theorem malformed_report_error_counterexample :
    extract_failing_test_details [("root".data, .str "/work".data)] =
      .error (.keyError "tests".data) ∧
    (Except.error (PyError.keyError "tests".data) :
        Except PyError (List Char × List FailingLoc)) ≠
      Except.error PyError.malformedReportError := by
  refine ⟨rfl, fun h => absurd (Except.error.inj h) (by decide)⟩

/-- C2 amended: ingesting a raw report that is missing a required key
(`"summary"` on the summarizer path; `"tests"`, `"root"`, or
`"nodeid"`/`"outcome"`/`"call"`/`"crash"` of a test record whose
outcome is `"failed"` on the failing-test path) fails by raising the
built-in `KeyError` naming the missing key, which is propagated to the
caller — the code defines no `MalformedReportError`. -/
theorem missing_key_raises_key_error :
    (∀ d : List (List Char × JVal), d.lookup ("tests".data) = none →
      extract_failing_test_details d = .error (.keyError "tests".data)) ∧
    (∀ d : List (List Char × JVal), d.lookup ("summary".data) = none →
      extract_test_run_details d = .error (.keyError "summary".data)) ∧
    (∀ (d : List (List Char × JVal)) (fields : List (List Char × JVal)) (ts : List JVal),
      d.lookup ("tests".data) = some (.arr (JVal.obj fields :: ts)) →
      fields.lookup ("outcome".data) = none →
      extract_failing_test_details d = .error (.keyError "outcome".data)) ∧
    (∀ (d : List (List Char × JVal)) (fields : List (List Char × JVal)) (ts : List JVal),
      d.lookup ("tests".data) = some (.arr (JVal.obj fields :: ts)) →
      fields.lookup ("outcome".data) = some (.str "failed".data) →
      fields.lookup ("nodeid".data) = none →
      extract_failing_test_details d = .error (.keyError "nodeid".data)) ∧
    (∀ (d : List (List Char × JVal)) (fields : List (List Char × JVal)) (ts : List JVal)
        (nid : List Char),
      d.lookup ("tests".data) = some (.arr (JVal.obj fields :: ts)) →
      fields.lookup ("outcome".data) = some (.str "failed".data) →
      fields.lookup ("nodeid".data) = some (.str nid) →
      fields.lookup ("call".data) = none →
      extract_failing_test_details d = .error (.keyError "call".data)) ∧
    (∀ (d : List (List Char × JVal)) (fields callF : List (List Char × JVal)) (ts : List JVal)
        (nid : List Char),
      d.lookup ("tests".data) = some (.arr (JVal.obj fields :: ts)) →
      fields.lookup ("outcome".data) = some (.str "failed".data) →
      fields.lookup ("nodeid".data) = some (.str nid) →
      fields.lookup ("call".data) = some (.obj callF) →
      callF.lookup ("crash".data) = none →
      extract_failing_test_details d = .error (.keyError "crash".data)) ∧
    (∀ (d : List (List Char × JVal)) (fields callF : List (List Char × JVal)) (ts : List JVal)
        (nid : List Char) (crashV : JVal),
      d.lookup ("tests".data) = some (.arr (JVal.obj fields :: ts)) →
      fields.lookup ("outcome".data) = some (.str "failed".data) →
      fields.lookup ("nodeid".data) = some (.str nid) →
      fields.lookup ("call".data) = some (.obj callF) →
      callF.lookup ("crash".data) = some crashV →
      d.lookup ("root".data) = none →
      extract_failing_test_details d = .error (.keyError "root".data)) := by
  refine ⟨?_, ?_, ?_, ?_, ?_, ?_, ?_⟩
  · intro d h
    simp [extract_failing_test_details, dictGet, h]
  · intro d h
    simp [extract_test_run_details, dictGet, h]
  · intro d fields ts h1 h2
    simp [extract_failing_test_details, extract_failing_tests_loop, dictGet, asArr, asObj,
      h1, h2]
  · intro d fields ts h1 h2 h3
    simp [extract_failing_test_details, extract_failing_tests_loop, dictGet, asArr, asObj,
      h1, h2, h3]
  · intro d fields ts nid h1 h2 h3 h4
    simp [extract_failing_test_details, extract_failing_tests_loop, dictGet, asArr, asObj,
      asStr, h1, h2, h3, h4]
  · intro d fields callF ts nid h1 h2 h3 h4 h5
    simp [extract_failing_test_details, extract_failing_tests_loop, dictGet, asArr, asObj,
      asStr, h1, h2, h3, h4, h5]
  · intro d fields callF ts nid crashV h1 h2 h3 h4 h5 h6
    simp [extract_failing_test_details, extract_failing_tests_loop, dictGet, asArr, asObj,
      asStr, h1, h2, h3, h4, h5, h6]

theorem missing_key_raises_key_error_witness :
    extract_failing_test_details [] = .error (.keyError "tests".data) ∧
    extract_test_run_details [] = .error (.keyError "summary".data) ∧
    extract_failing_test_details
        [("tests".data, .arr [.obj [("nodeid".data, .str "t.py::a".data)]])] =
      .error (.keyError "outcome".data) :=
  ⟨missing_key_raises_key_error.1 [] rfl,
   missing_key_raises_key_error.2.1 [] rfl,
   missing_key_raises_key_error.2.2.1 _ _ _ rfl rfl⟩

/-- The raw report of the spec's round-trip scenario: root `/work`,
one test with nodeid `tests/test_math.py::test_add`, outcome
`failed`, and crash `{lineno: 12, message: "assert 1 == 2"}`. -/
def c4Report : List (List Char × JVal) :=
  [("root".data, .str "/work".data),
   ("summary".data,
    .obj [("passed".data, .num 2), ("failed".data, .num 1), ("total".data, .num 3)]),
   ("tests".data, .arr
     [.obj [("nodeid".data, .str "tests/test_math.py::test_add".data),
            ("outcome".data, .str "failed".data),
            ("call".data,
             .obj [("crash".data,
                    .obj [("lineno".data, .num 12),
                          ("message".data, .str "assert 1 == 2".data)])])]])]

/-- The diagnostic text the locator produces for `c4Report`. -/
def c4Text : List Char :=
  "\n  Name: tests/test_math.py::test_add\n  Path: /work/tests/test_math.py\n  Line number: 12\n  Message: assert 1 == 2\n".data

/-- C4: on the round-trip report the locator produces exactly one
location, with `test_name` `"test_add"` (the last `::`-separated
component of the nodeid) and `test_path` `/work/tests/test_math.py`
(the first `::`-separated component joined under the root), and its
text contains the lines `Name: tests/test_math.py::test_add`,
`Line number: 12` and `Message: assert 1 == 2`. -/
theorem extract_failing_test_details_round_trip :
    extract_failing_test_details c4Report =
      .ok (c4Text,
        [⟨"test_add".data, ["/".data, "work".data, "tests".data, "test_math.py".data]⟩]) ∧
    (∃ pre post, c4Text = pre ++ "Name: tests/test_math.py::test_add\n".data ++ post) ∧
    (∃ pre post, c4Text = pre ++ "Line number: 12\n".data ++ post) ∧
    (∃ pre post, c4Text = pre ++ "Message: assert 1 == 2\n".data ++ post) := by
  refine ⟨rfl, ⟨"\n  ".data, "  Path: /work/tests/test_math.py\n  Line number: 12\n  Message: assert 1 == 2\n".data, by decide⟩,
    ⟨"\n  Name: tests/test_math.py::test_add\n  Path: /work/tests/test_math.py\n  ".data, "  Message: assert 1 == 2\n".data, by decide⟩,
    ⟨"\n  Name: tests/test_math.py::test_add\n  Path: /work/tests/test_math.py\n  Line number: 12\n  ".data, [], by decide⟩⟩

theorem extract_failing_tests_loop_spec (d : List (List Char × JVal))
    (root : List Char) (hroot : d.lookup ("root".data) = some (.str root)) :
    ∀ (ts : List JVal) (acc : List Char) (locs : List FailingLoc),
      (∀ t ∈ ts, WFTest t) →
      ∃ s allLocs,
        extract_failing_tests_loop d ts acc locs = .ok (s, allLocs) ∧
        allLocs.length = locs.length + countFailed ts ∧
        (countFailed ts = 0 → s = acc ∧ allLocs = locs) ∧
        (0 < countFailed ts → acc.length < s.length) := by
  intro ts
  induction ts with
  | nil =>
    intro acc locs _
    exact ⟨acc, locs, by simp [extract_failing_tests_loop], by simp [countFailed],
      fun _ => ⟨rfl, rfl⟩, by simp [countFailed]⟩
  | cons t rest ih =>
    intro acc locs hwf
    obtain ⟨fields, rfl, ⟨oc, hoc⟩, hfail⟩ := hwf t (List.mem_cons_self t rest)
    have hrest : ∀ u ∈ rest, WFTest u := fun u hu => hwf u (List.mem_cons_of_mem _ hu)
    by_cases hf : isFailedTest (JVal.obj fields) = true
    · have hocS : fields.lookup ("outcome".data) = some (.str "failed".data) := by
        cases oc with
        | str s =>
          have hs : s = "failed".data := by simpa [isFailedTest, hoc] using hf
          rw [hoc, hs]
        | num n => exact absurd hf (by simp [isFailedTest, hoc])
        | obj o => exact absurd hf (by simp [isFailedTest, hoc])
        | arr a => exact absurd hf (by simp [isFailedTest, hoc])
      obtain ⟨⟨nid, hnid⟩, callF, hcall, crashF, hcrash, ⟨ln, hln⟩, ⟨msg, hmsg⟩⟩ := hfail hf
      have hcount : countFailed (JVal.obj fields :: rest) = countFailed rest + 1 := by
        simp [countFailed, List.countP_cons, hf]
      simp only [extract_failing_tests_loop, asObj, dictGet, asStr, hocS, hnid, hcall,
        hcrash, hroot, hln, hmsg]
      simp only [eq_self_iff_true, if_true]
      obtain ⟨s, allLocs, heq, hlen, hzero, hpos⟩ := ih _ _ hrest
      refine ⟨s, allLocs, heq, ?_, ?_, ?_⟩
      · rw [hcount]
        simp only [List.length_append, List.length_cons, List.length_nil] at hlen
        omega
      · intro h0
        rw [hcount] at h0
        omega
      · intro _
        rcases Nat.eq_zero_or_pos (countFailed rest) with hc | hc
        · obtain ⟨hs, -⟩ := hzero hc
          subst hs
          simp only [List.length_append, List.length_cons, List.length_nil]
          omega
        · have h1 := hpos hc
          simp only [List.length_append, List.length_cons, List.length_nil] at h1
          omega
    · have hcount : countFailed (JVal.obj fields :: rest) = countFailed rest := by
        simp [countFailed, List.countP_cons, hf]
      cases oc with
      | str s =>
        have hsne : ¬(s = "failed".data) := by
          intro hcontra
          exact hf (by simp [isFailedTest, hoc, hcontra])
        simp only [extract_failing_tests_loop, asObj, dictGet, hoc, if_neg hsne]
        rw [hcount]
        exact ih acc locs hrest
      | num n =>
        simp only [extract_failing_tests_loop, asObj, dictGet, hoc]
        rw [hcount]
        exact ih acc locs hrest
      | obj o =>
        simp only [extract_failing_tests_loop, asObj, dictGet, hoc]
        rw [hcount]
        exact ih acc locs hrest
      | arr a =>
        simp only [extract_failing_tests_loop, asObj, dictGet, hoc]
        rw [hcount]
        exact ih acc locs hrest

/-- C1: on a well-formed report, `extract_failing_test_details`
succeeds, its text satisfies the `hasNoFailures` sentinel check (i.e.
is exactly the single newline) together with an empty location list
exactly when the report has zero records with outcome `"failed"`, and
the location list's length always equals the number of failed
records. -/
theorem extract_failing_test_details_empty_iff
    (d : List (List Char × JVal)) (root : List Char) (tests : List JVal)
    (hroot : d.lookup ("root".data) = some (.str root))
    (htests : d.lookup ("tests".data) = some (.arr tests))
    (hwf : ∀ t ∈ tests, WFTest t) :
    ∃ s locs, extract_failing_test_details d = .ok (s, locs) ∧
      (is_failing_test_details_empty s = true ↔ countFailed tests = 0) ∧
      (locs = [] ↔ countFailed tests = 0) ∧
      locs.length = countFailed tests := by
  obtain ⟨s, allLocs, heq, hlen, hzero, hpos⟩ :=
    extract_failing_tests_loop_spec d root hroot tests ['\n'] [] hwf
  simp only [List.length_nil, Nat.zero_add] at hlen
  refine ⟨s, allLocs, ?_, ?_, ?_, hlen⟩
  · simp [extract_failing_test_details, dictGet, htests, asArr, heq]
  · constructor
    · intro hemp
      by_contra h0
      have h1 := hpos (Nat.pos_of_ne_zero h0)
      have hs : s = "\n".data := by
        simpa [is_failing_test_details_empty] using hemp
      rw [hs] at h1
      simp at h1
    · intro h0
      rw [(hzero h0).1]
      decide
  · constructor
    · intro hnil
      rw [hnil] at hlen
      simpa using hlen.symm
    · intro h0
      exact (hzero h0).2

/-- A concrete well-formed report with one failed and one passed test,
used to instantiate the C1 theorem. -/
def c1Tests : List JVal :=
  [.obj [("nodeid".data, .str "tests/test_a.py::test_one".data),
         ("outcome".data, .str "failed".data),
         ("call".data,
          .obj [("crash".data,
                 .obj [("lineno".data, .num 7),
                       ("message".data, .str "boom".data)])])],
   .obj [("nodeid".data, .str "tests/test_a.py::test_two".data),
         ("outcome".data, .str "passed".data)]]

/-- The raw report dict wrapping `c1Tests`. -/
def c1Report : List (List Char × JVal) :=
  [("root".data, .str "/work".data), ("tests".data, .arr c1Tests)]

theorem extract_failing_test_details_empty_iff_witness :
    ∃ s locs, extract_failing_test_details c1Report = .ok (s, locs) ∧
      (is_failing_test_details_empty s = true ↔ countFailed c1Tests = 0) ∧
      (locs = [] ↔ countFailed c1Tests = 0) ∧
      locs.length = countFailed c1Tests :=
  extract_failing_test_details_empty_iff c1Report "/work".data c1Tests rfl rfl (by
    intro t ht
    simp only [c1Tests, List.mem_cons, List.not_mem_nil, or_false] at ht
    rcases ht with rfl | rfl
    · exact ⟨_, rfl, ⟨.str "failed".data, rfl⟩, fun _ =>
        ⟨⟨_, rfl⟩, _, rfl, _, rfl, ⟨_, rfl⟩, ⟨_, rfl⟩⟩⟩
    · exact ⟨_, rfl, ⟨.str "passed".data, rfl⟩, fun hcontra => absurd hcontra (by decide)⟩)

theorem splitlinesAux_cons_newline (acc rest : List Char) :
    splitlinesAux acc ('\n' :: rest) = acc.reverse :: splitlinesAux [] rest := by
  cases rest with
  | nil => rfl
  | cons d rest2 => rfl

theorem splitlinesAux_cons_no_break (acc : List Char) (c : Char) (rest : List Char)
    (hc : isLineBreak c = false) :
    splitlinesAux acc (c :: rest) = splitlinesAux (c :: acc) rest := by
  have hcr : c ≠ '\r' := fun h => by rw [h] at hc; exact absurd hc (by decide)
  cases rest with
  | nil => simp [splitlinesAux, hc]
  | cons d rest2 => simp [splitlinesAux, if_neg hcr, hc]

theorem splitlinesAux_no_break :
    ∀ (acc cs : List Char), (∀ c ∈ acc, isLineBreak c = false) →
      ∀ l ∈ splitlinesAux acc cs, ∀ c ∈ l, isLineBreak c = false := by
  intro acc cs
  induction acc, cs using splitlinesAux.induct with
  | case1 acc hemp =>
    intro _ l hl
    simp [splitlinesAux, hemp] at hl
  | case2 acc hemp =>
    intro hacc l hl c hc
    simp [splitlinesAux, hemp] at hl
    subst hl
    exact hacc c (List.mem_reverse.mp hc)
  | case3 acc c0 hbr ih =>
    intro hacc l hl c hc
    simp [splitlinesAux, hbr] at hl
    subst hl
    exact hacc c (List.mem_reverse.mp hc)
  | case4 acc c0 hbr ih =>
    intro hacc l hl c hc
    simp [splitlinesAux, hbr] at hl
    subst hl
    rcases List.mem_append.mp hc with h1 | h2
    · exact hacc c (List.mem_reverse.mp h1)
    · rw [List.mem_singleton.mp h2]
      simp at hbr
      exact hbr
  | case5 acc rest ih =>
    intro hacc l hl c hc
    simp [splitlinesAux] at hl
    rcases hl with rfl | hl2
    · exact hacc c (List.mem_reverse.mp hc)
    · exact ih (by simp) l hl2 c hc
  | case6 acc d rest hd ih =>
    intro hacc l hl c hc
    simp [splitlinesAux, hd] at hl
    rcases hl with rfl | hl2
    · exact hacc c (List.mem_reverse.mp hc)
    · exact ih (by simp) l hl2 c hc
  | case7 acc c0 d rest hcr hbr ih =>
    intro hacc l hl c hc
    simp [splitlinesAux, hcr, hbr] at hl
    rcases hl with rfl | hl2
    · exact hacc c (List.mem_reverse.mp hc)
    · exact ih (by simp) l hl2 c hc
  | case8 acc c0 d rest hcr hbr ih =>
    intro hacc l hl c hc
    simp [splitlinesAux, hcr, hbr] at hl
    refine ih ?_ l hl c hc
    intro x hx
    rcases List.mem_cons.mp hx with rfl | hx2
    · simp at hbr
      exact hbr
    · exact hacc x hx2

theorem splitlinesAux_line_append :
    ∀ (l : List Char), (∀ c ∈ l, isLineBreak c = false) →
      ∀ (acc rest : List Char),
        splitlinesAux acc (l ++ '\n' :: rest) = (acc.reverse ++ l) :: splitlinesAux [] rest := by
  intro l
  induction l with
  | nil =>
    intro _ acc rest
    simpa using splitlinesAux_cons_newline acc rest
  | cons c0 l2 ih =>
    intro hl acc rest
    have hc0 : isLineBreak c0 = false := hl c0 (List.mem_cons_self _ _)
    rw [List.cons_append, splitlinesAux_cons_no_break acc c0 _ hc0,
      ih (fun x hx => hl x (List.mem_cons_of_mem _ hx)) (c0 :: acc) rest]
    simp

theorem splitlines_flatten (ls : List (List Char))
    (h : ∀ l ∈ ls, ∀ c ∈ l, isLineBreak c = false) :
    splitlines ((ls.map (fun l => l ++ ['\n'])).flatten) = ls := by
  induction ls with
  | nil => rfl
  | cons l rest ih =>
    simp only [List.map_cons, List.flatten_cons]
    rw [show (l ++ ['\n']) ++ (rest.map (fun x => x ++ ['\n'])).flatten =
        l ++ '\n' :: (rest.map (fun x => x ++ ['\n'])).flatten from by simp]
    rw [splitlines, splitlinesAux_line_append l (h l (List.mem_cons_self _ _)) [] _]
    rw [show splitlinesAux [] ((rest.map (fun x => x ++ ['\n'])).flatten) =
        splitlines ((rest.map (fun x => x ++ ['\n'])).flatten) from rfl]
    rw [ih (fun x hx => h x (List.mem_cons_of_mem _ hx))]
    simp

theorem filter_foldl_general (label : List Char) :
    ∀ (lines : List (List Char)) (acc : List Char),
      lines.foldl (fun filtered_output line =>
        if inStr label line then filtered_output ++ line ++ ['\n']
        else filtered_output) acc =
      acc ++ ((lines.filter (fun line => inStr label line)).map
        (fun line => line ++ ['\n'])).flatten := by
  intro lines
  induction lines with
  | nil => intro acc; simp
  | cons l rest ih =>
    intro acc
    rw [List.foldl_cons]
    by_cases hl : inStr label l = true
    · rw [if_pos hl, ih, List.filter_cons]
      simp [hl, List.append_assoc]
    · rw [if_neg hl, ih, List.filter_cons]
      simp [hl]

theorem filter_test_output_eq (label out : List Char) :
    filter_test_output label out =
      (((splitlines out).filter (fun line => inStr label line)).map
        (fun line => line ++ ['\n'])).flatten := by
  rw [filter_test_output, filter_foldl_general]
  simp

/-- C6: for every label and raw output, `filter_test_output` returns
exactly the concatenation, in original relative order, of the lines of
the input that contain the label as a (case-sensitive) substring, each
followed by exactly one newline; when no line contains the label it
returns the empty string. -/
theorem filter_test_output_spec (label out : List Char) :
    filter_test_output label out =
      (((splitlines out).filter (fun line => inStr label line)).map
        (fun line => line ++ ['\n'])).flatten ∧
    ((splitlines out).all (fun line => !inStr label line) = true →
      filter_test_output label out = []) := by
  refine ⟨filter_test_output_eq label out, ?_⟩
  intro hall
  rw [filter_test_output_eq]
  have hfil : (splitlines out).filter (fun line => inStr label line) = [] := by
    rw [List.filter_eq_nil_iff]
    intro l hl
    have := List.all_eq_true.mp hall l hl
    simp at this
    simp [this]
  rw [hfil]
  rfl

theorem filter_test_output_spec_witness :
    filter_test_output "FAILED".data "ok one\nok two\n".data = [] ∧
    filter_test_output "FAILED".data "ok 1\nFAILED t1\r\nFAILED t2\n".data =
      (((splitlines "ok 1\nFAILED t1\r\nFAILED t2\n".data).filter
        (fun line => inStr "FAILED".data line)).map (fun line => line ++ ['\n'])).flatten :=
  ⟨(filter_test_output_spec _ _).2 (by decide),
   (filter_test_output_spec _ _).1⟩

/-- C10: `filter_test_output` is idempotent — filtering its own output
with the same label leaves it unchanged, since every emitted line
already contains the label and carries exactly one trailing
newline. -/
theorem filter_test_output_idempotent (label out : List Char) :
    filter_test_output label (filter_test_output label out) =
      filter_test_output label out := by
  have hkeep : ∀ l ∈ (splitlines out).filter (fun line => inStr label line),
      inStr label l = true := fun l hl => (List.mem_filter.mp hl).2
  have hnb : ∀ l ∈ (splitlines out).filter (fun line => inStr label line),
      ∀ c ∈ l, isLineBreak c = false := fun l hl =>
    splitlinesAux_no_break [] out (by simp) l (List.mem_filter.mp hl).1
  rw [filter_test_output_eq label out, filter_test_output_eq label,
    splitlines_flatten _ hnb, List.filter_eq_self.mpr hkeep]
